import Mathlib

/-!
Verification development for the bootc `tmpfiles` crate
(`src/tmpfiles/src/lib.rs`): a shallow embedding of the tmpfiles.d
path codec, entry-line parser, generation tracker and the recursive
`/var`-to-tmpfiles.d tree converter, together with theorems settling
the specification claims.

Modelling conventions:
- Rust byte strings, paths and emitted text lines are `List Nat`
  (each element a byte value, < 256 for real inputs).
- Fallible Rust functions returning `Result` become `Except Err` (or
  `Option` where only `std::fmt::Error` can occur).
- The filesystem subtree under `var/` is a first-order tree `FsTree`
  (directory-iteration order is the sibling order of the tree); the
  identity-resolution collaborators (the `uzers` capability traits)
  are functions `Nat → Option (List Nat)` from uid/gid to a resolved
  name, `none` modelling both "not found" and a non-UTF-8 name.
- Mutation (file/directory removal) is recorded in a `deleted` list
  rather than performed, and the single atomic output-file write is
  recorded in a `written` field.
-/

deriving instance DecidableEq for Except

/-- Bytes of an ASCII string literal, used to write concrete byte lists
    readably. -/
def asciiBytes (s : String) : List Nat := s.data.map Char.toNat

/-- Rust `u8::is_ascii_alphanumeric`. -/
def isAsciiAlphanumeric (c : Nat) : Bool :=
  (48 ≤ c && c ≤ 57) || (65 ≤ c && c ≤ 90) || (97 ≤ c && c ≤ 122)

/-- Rust `u8::is_ascii_punctuation`. -/
def isAsciiPunctuation (c : Nat) : Bool :=
  (33 ≤ c && c ≤ 47) || (58 ≤ c && c ≤ 64) || (91 ≤ c && c ≤ 96) || (123 ≤ c && c ≤ 126)

/-- Rust `u8::is_ascii_whitespace`: space, tab, newline, form feed, carriage return. -/
def isAsciiWhitespace (c : Nat) : Bool :=
  c == 32 || c == 9 || c == 10 || c == 12 || c == 13

/-- Lowercase hexadecimal digit character (byte) for a value below 16,
    as produced by Rust's `{:02x}` formatting. -/
def hexDigit (d : Nat) : Nat := if d < 10 then 48 + d else 87 + d

/-- The two lowercase hex digits of a byte, Rust `format!("\x7b:02x\x7d", o)`. -/
def hex2 (o : Nat) : List Nat := [hexDigit (o / 16 % 16), hexDigit (o % 16)]

/-- The escape expansion of one byte in the slow path of `escape_path`:
    printable non-backslash bytes pass through, backslash/newline/tab/CR
    get two-character escapes, everything else becomes a hex escape. -/
def escByte (c : Nat) : List Nat :=
  if (isAsciiAlphanumeric c || isAsciiPunctuation c) && c != 92 then [c]
  else if c == 92 then [92, 92]
  else if c == 10 then [92, 110]
  else if c == 9 then [92, 116]
  else if c == 13 then [92, 114]
  else 92 :: 120 :: hex2 c

/-- Rust `escape_path`: fails (`fmt::Error`, modelled `none`) on the empty
    path; passes a path of only ASCII alphanumerics and `/` through
    unchanged; otherwise escapes byte by byte via `escByte`. -/
def escape_path (p : List Nat) : Option (List Nat) :=
  if p.isEmpty then none
  else if p.all (fun c => isAsciiAlphanumeric c || c == 47) then some p
  else some (p.flatMap escByte)

/-- An error of the tmpfiles translation, Rust `enum Error` (the I/O and
    identity-resolution variants are collapsed to the cases the model can
    produce; `fmtError` is the propagated `std::fmt::Error`). -/
inductive Err where
  | userNotFound (uid : Nat)
  | groupNotFound (gid : Nat)
  | missingTmpfilesDir
  | foundVarRunNonSymlink
  | malformedTmpfilesPath
  | malformedTmpfilesEntry (line : List Nat)
  | fmtError
deriving DecidableEq, Repr

/-- The predicate `should_take_next` inside `impl_unescape_path_until`:
    in quoted mode consume up to a double quote, in bare mode up to
    ASCII whitespace. -/
def shouldTake (endOfRecordIsQuote : Bool) (c : Nat) : Bool :=
  if endOfRecordIsQuote then c != 34 else !(isAsciiWhitespace c)

/-- Value of an ASCII hex digit character, Rust `char::to_digit(16)`. -/
def hexVal (c : Nat) : Option Nat :=
  if 48 ≤ c && c ≤ 57 then some (c - 48)
  else if 97 ≤ c && c ≤ 102 then some (c - 87)
  else if 65 ≤ c && c ≤ 70 then some (c - 55)
  else none

/-- Rust `u8::from_str_radix(s, 16)` on the exactly-two-character string
    made of bytes `a` and `b` (as in the `\xHH` decoder): accepts two hex
    digits, or a leading `+` sign before one hex digit. A `-` sign is
    rejected for the unsigned type (it is not a hex digit, so it falls
    into the failing branch). -/
def fromStrRadix2 (a b : Nat) : Option Nat :=
  if a == 43 then hexVal b
  else match hexVal a, hexVal b with
    | some x, some y => some (16 * x + y)
    | _, _ => none

/-- Rust `impl_unescape_path_until`: consume bytes while `shouldTake`
    holds, reversing the escape rules; returns the decoded bytes.
    Reaching the end of the stream is never an error by itself (so an
    unterminated quote merely consumes the remainder); an error arises
    only from a backslash followed by nothing, an unrecognized escape
    character, or a `\xHH` with fewer than two following bytes or two
    bytes that do not parse as a radix-16 byte. -/
def impl_unescape_path_until (q : Bool) : List Nat → Except Err (List Nat)
  | [] => .ok []
  | c :: rest =>
    if !(shouldTake q c) then .ok []
    else if c != 92 then (impl_unescape_path_until q rest).map (c :: ·)
    else match rest with
      | [] => .error .malformedTmpfilesPath
      | c2 :: rest2 =>
        if c2 == 92 then (impl_unescape_path_until q rest2).map (92 :: ·)
        else if c2 == 110 then (impl_unescape_path_until q rest2).map (10 :: ·)
        else if c2 == 114 then (impl_unescape_path_until q rest2).map (13 :: ·)
        else if c2 == 116 then (impl_unescape_path_until q rest2).map (9 :: ·)
        else if c2 == 120 then
          match rest2 with
          | [] => .error .malformedTmpfilesPath
          | [_] => .error .malformedTmpfilesPath
          | a :: b :: rest3 =>
            match fromStrRadix2 a b with
            | none => .error .malformedTmpfilesPath
            | some v => (impl_unescape_path_until q rest3).map (v :: ·)
        else .error .malformedTmpfilesPath

/-- Rust `unescape_path`: a leading `"` switches to quoted mode (the
    quote itself is consumed), otherwise bare mode. -/
def unescape_path (src : List Nat) : Except Err (List Nat) :=
  match src with
  | 34 :: rest => impl_unescape_path_until true rest
  | s => impl_unescape_path_until false s

/-- Rust `tmpfiles_entry_get_path`: skip leading whitespace, skip the
    whole first non-whitespace token (the type field with any attached
    modifier characters), fail if that token is empty, skip whitespace,
    then unescape the path. -/
def tmpfiles_entry_get_path (line : List Nat) : Except Err (List Nat) :=
  let s1 := line.dropWhile isAsciiWhitespace
  if s1.isEmpty then .error (.malformedTmpfilesEntry line)
  else
    let s2 := s1.dropWhile (fun c => !(isAsciiWhitespace c))
    let s3 := s2.dropWhile isAsciiWhitespace
    unescape_path s3

/-- Components of a byte path split at `/`, empty pieces dropped,
    mirroring how Rust `Path::components` tokenizes (`.` pieces are
    filtered separately when needed). `cur` is the reversed pending
    component. -/
def compSplitAux (cur : List Nat) : List Nat → List (List Nat)
  | [] => if cur.isEmpty then [] else [cur.reverse]
  | c :: rest =>
    if c == 47 then
      if cur.isEmpty then compSplitAux [] rest
      else cur.reverse :: compSplitAux [] rest
    else compSplitAux (c :: cur) rest

/-- Rust `path.starts_with("/var/run")` on an absolute byte path:
    the path is absolute and its normalized components (with non-leading
    `.` removed, as `Path::components` does; a leading `.` cannot occur
    on an absolute path) begin with `var`, `run`. -/
def startsWithVarRun (p : List Nat) : Bool :=
  p.head? == some 47
    && [[118, 97, 114], [114, 117, 110]].isPrefixOf
        ((compSplitAux [] p).filter (fun c => c != [46]))

/-- Rust `canonicalize_escape_path`: remap a path under `/var/run` to
    `/run` (dropping the four bytes `/var`) before escaping. -/
def canonicalize_escape_path (p : List Nat) : Option (List Nat) :=
  if startsWithVarRun p then escape_path (p.drop 4) else escape_path p

/-- In tmpfiles.d only directories and symlinks are handled, Rust
    `enum FileMeta`. A directory carries its permission bits (the raw
    `st_mode` already truncated by `Mode::from_raw_mode`), a symlink its
    literal target bytes. -/
inductive FileMeta where
  | Directory (mode : Nat)
  | Symlink (target : List Nat)
deriving DecidableEq, Repr

/-- Four-digit zero-padded octal rendering of a (truncated, < 4096)
    mode, Rust `format!("\x7bmode:04o\x7d")`. -/
def octal4 (m : Nat) : List Nat :=
  let ds := (Nat.toDigits 8 m).map Char.toNat
  List.replicate (4 - ds.length) 48 ++ ds

/-- Rust `translate_to_tmpfiles_d`: format one entry line. Directories
    become `d <path> <mode> <user> <group> - -`, symlinks become
    `L <path> - - - - <target>`; both path and target go through
    `canonicalize_escape_path`, whose `fmt::Error` propagates. -/
def translate_to_tmpfiles_d (absPath : List Nat) (meta : FileMeta)
    (username groupname : List Nat) : Except Err (List Nat) :=
  match meta with
  | .Directory mode =>
    match canonicalize_escape_path absPath with
    | none => .error .fmtError
    | some p =>
      .ok (asciiBytes "d " ++ p ++ [32] ++ octal4 mode ++ [32] ++ username
            ++ [32] ++ groupname ++ asciiBytes " - -")
  | .Symlink target =>
    match canonicalize_escape_path absPath, canonicalize_escape_path target with
    | some p, some t => .ok (asciiBytes "L " ++ p ++ asciiBytes " - - - - " ++ t)
    | _, _ => .error .fmtError

/-- The existing-entries mapping from declared absolute path to its text
    line (Rust `BTreeMap<PathBuf, String>`; modelled as an association
    list, which the claims only query by key). -/
abbrev TmpfilesMap := List (List Nat × List Nat)

/-- Rust `BTreeMap::contains_key`. -/
def containsKey (m : TmpfilesMap) (k : List Nat) : Bool :=
  m.any (fun kv => kv.1 == k)

/-- Rust `BTreeMap::insert`: replaces the value of an existing key,
    otherwise adds the binding. -/
def insertMap (m : TmpfilesMap) (k v : List Nat) : TmpfilesMap :=
  if containsKey m k then m.map (fun kv => if kv.1 == k then (k, v) else kv)
  else m ++ [(k, v)]

/-- Rust `BTreeSet<String>::insert`: set semantics (duplicates collapse);
    the set is modelled as a duplicate-free list in insertion order. -/
def insertSet (s : List (List Nat)) (x : List Nat) : List (List Nat) :=
  if x ∈ s then s else s ++ [x]

/-- The mutable outputs threaded through the recursive walk: the emitted
    entry set, the unsupported-path list, and the record of filesystem
    objects removed (Rust performs the removals eagerly; the model logs
    the removed absolute paths instead). -/
structure WalkState where
  entries : List (List Nat)
  unsupported : List (List Nat)
  deleted : List (List Nat)
deriving DecidableEq, Repr

/-- A subtree of the filesystem under the target root, in directory
    iteration order (the sibling chain is the `read_dir` order). `mount`
    marks a directory that is a distinct mount point, i.e. for which
    `open_dir_noxdev` returns `None`. `other` is any object that is
    neither a directory nor a symlink (regular file, device, fifo,
    socket). `uid`/`gid` are the owner ids from `symlink_metadata`. -/
inductive FsTree where
  | nil : FsTree
  | dir (name : List Nat) (mode uid gid : Nat) (mount : Bool)
      (children : FsTree) (next : FsTree) : FsTree
  | symlink (name target : List Nat) (uid gid : Nat) (next : FsTree) : FsTree
  | other (name : List Nat) (uid gid : Nat) (next : FsTree) : FsTree
deriving DecidableEq, Repr

/-- Owner-name resolution and entry formatting for one walk entry: the
    `get_user_by_uid` / `get_group_by_gid` lookups (an unresolvable or
    non-UTF-8 name is `none`) followed by `translate_to_tmpfiles_d`. -/
def resolve_and_translate (users groups : Nat → Option (List Nat))
    (path : List Nat) (meta : FileMeta) (uid gid : Nat) : Except Err (List Nat) :=
  match users uid with
  | none => .error (.userNotFound uid)
  | some username =>
    match groups gid with
    | none => .error (.groupNotFound gid)
    | some groupname => translate_to_tmpfiles_d path meta username groupname

/-- Rust `convert_path_to_tmpfiles_d_recurse`, the per-child loop over
    the entries of the directory at absolute path `pfx`. For each child:
    paths already declared in `existing` are not translated; otherwise
    an unsupported object is recorded and skipped (no deletion), and a
    directory or symlink is resolved, formatted and inserted into the
    entry set. A directory that is not a mount point is recursed into
    and then (in a destructive run) removed recursively; a mount-point
    directory is neither recursed into nor removed; a non-directory is
    removed immediately (in a destructive run). The unsupported list
    records the path relative to the root, i.e. without the leading
    slash, exactly as the Rust code pushes `relpath`. -/
def convert_path_to_tmpfiles_d_recurse (users groups : Nat → Option (List Nat))
    (existing : TmpfilesMap) (readonly : Bool) (pfx : List Nat)
    (st : WalkState) : FsTree → Except Err WalkState
  | .nil => .ok st
  | .other nm _ _ next =>
    let path := pfx ++ 47 :: nm
    if containsKey existing path then
      convert_path_to_tmpfiles_d_recurse users groups existing readonly pfx
        { st with deleted := st.deleted ++ if readonly then [] else [path] } next
    else
      convert_path_to_tmpfiles_d_recurse users groups existing readonly pfx
        { st with unsupported := st.unsupported ++ [path.drop 1] } next
  | .symlink nm target uid gid next =>
    let path := pfx ++ 47 :: nm
    if containsKey existing path then
      convert_path_to_tmpfiles_d_recurse users groups existing readonly pfx
        { st with deleted := st.deleted ++ if readonly then [] else [path] } next
    else
      match resolve_and_translate users groups path (.Symlink target) uid gid with
      | .error e => .error e
      | .ok line =>
        convert_path_to_tmpfiles_d_recurse users groups existing readonly pfx
          { st with entries := insertSet st.entries line,
                    deleted := st.deleted ++ if readonly then [] else [path] } next
  | .dir nm mode uid gid mount children next =>
    let path := pfx ++ 47 :: nm
    let step : Except Err WalkState :=
      if containsKey existing path then .ok st
      else
        match resolve_and_translate users groups path (.Directory (mode % 4096)) uid gid with
        | .error e => .error e
        | .ok line => .ok { st with entries := insertSet st.entries line }
    match step with
    | .error e => .error e
    | .ok st1 =>
      if mount then
        convert_path_to_tmpfiles_d_recurse users groups existing readonly pfx st1 next
      else
        match convert_path_to_tmpfiles_d_recurse users groups existing readonly path st1 children with
        | .error e => .error e
        | .ok st2 =>
          convert_path_to_tmpfiles_d_recurse users groups existing readonly pfx
            { st2 with deleted := st2.deleted ++ if readonly then [] else [path] } next

/-- Byte name of the `var/run` child checked before a destructive run. -/
def runNameBytes : List Nat := [114, 117, 110]

/-- The `rootfs.symlink_metadata_optional("var/run")` precondition: true
    when a child of `var` named `run` exists and is not a symlink. -/
def varRunNonSymlink : FsTree → Bool
  | .nil => false
  | .dir nm _ _ _ _ _ next => if nm = runNameBytes then true else varRunNonSymlink next
  | .symlink nm _ _ _ next => if nm = runNameBytes then false else varRunNonSymlink next
  | .other nm _ _ next => if nm = runNameBytes then true else varRunNonSymlink next

/-- Rust constant `TMPFILESD`, the config directory path. -/
def TMPFILESD : List Nat := asciiBytes "usr/lib/tmpfiles.d"

/-- Rust constant `BOOTC_GENERATED_PREFIX`, the reserved file-stem marker
    of auto-generated config files. -/
def autogenStem : List Nat := asciiBytes "bootc-autogenerated-var"

/-- Decimal digits of a number, as Rust `Display` for `u32` renders it. -/
def decimalDigits (n : Nat) : List Nat := (Nat.toDigits 10 n).map Char.toNat

/-- Rust `BootcTmpfilesGeneration::path`: the output file for generation
    count `n`. -/
def generationPath (n : Nat) : List Nat :=
  TMPFILESD ++ [47] ++ autogenStem ++ [45] ++ decimalDigits n ++ asciiBytes ".conf"

/-- One config file of the tmpfiles.d directory: its file name (bytes)
    and its text lines (each without the trailing newline, as
    `BufRead::lines` yields them). -/
abbrev ConfFile := List Nat × List (List Nat)

/-- Rust `Path::file_stem` / `Path::extension` on a directory-entry file
    name, returning the pair only when both are present: `none` when the
    name has no dot or only a leading dot (entry names `.` and `..` do
    not occur in `Dir::entries`). -/
def file_stem_ext (nm : List Nat) : Option (List Nat × List Nat) :=
  let ext := nm.reverse.takeWhile (fun c => c != 46)
  if ext.length == nm.length then none
  else
    let stemLen := nm.length - ext.length - 1
    if stemLen == 0 then none
    else some (nm.take stemLen, ext.reverse)

/-- The inner loop of `read_tmpfiles` over one file's lines: empty lines
    and `#` comments are skipped, every other line must parse and its
    declared path is inserted into the map (replacing an earlier
    declaration of the same path). -/
def read_tmpfiles_lines (m : TmpfilesMap) : List (List Nat) → Except Err TmpfilesMap
  | [] => .ok m
  | line :: rest =>
    if line.isEmpty || line.head? == some 35 then read_tmpfiles_lines m rest
    else match tmpfiles_entry_get_path line with
      | .error e => .error e
      | .ok path => read_tmpfiles_lines (insertMap m path line) rest

/-- Whether a byte is a UTF-8 continuation byte (`0x80`–`0xBF`). -/
def isUtf8Cont (c : Nat) : Bool := 128 ≤ c && c ≤ 191

/-- Whether a byte sequence is valid UTF-8, as Rust's `str::from_utf8`
    (and hence `OsStr::as_str`) decides it: ASCII bytes stand alone;
    `0xC2`–`0xDF` lead a 2-byte sequence; `0xE0`–`0xEF` lead a 3-byte
    sequence whose first continuation range excludes overlong forms
    (`0xE0`) and surrogates (`0xED`); `0xF0`–`0xF4` lead a 4-byte
    sequence whose first continuation range excludes overlong forms
    (`0xF0`) and values above `U+10FFFF` (`0xF4`). -/
def isValidUtf8 : List Nat → Bool
  | [] => true
  | c :: rest =>
    if c ≤ 127 then isValidUtf8 rest
    else if 194 ≤ c && c ≤ 223 then
      match rest with
      | c1 :: rest1 => isUtf8Cont c1 && isValidUtf8 rest1
      | [] => false
    else if 224 ≤ c && c ≤ 239 then
      match rest with
      | c1 :: c2 :: rest2 =>
        (if c == 224 then 160 ≤ c1 && c1 ≤ 191
         else if c == 237 then 128 ≤ c1 && c1 ≤ 159
         else isUtf8Cont c1) && isUtf8Cont c2 && isValidUtf8 rest2
      | _ => false
    else if 240 ≤ c && c ≤ 244 then
      match rest with
      | c1 :: c2 :: c3 :: rest3 =>
        (if c == 240 then 144 ≤ c1 && c1 ≤ 191
         else if c == 244 then 128 ≤ c1 && c1 ≤ 143
         else isUtf8Cont c1) && isUtf8Cont c2 && isUtf8Cont c3 && isValidUtf8 rest3
      | _ => false
    else false

/-- The outer loop of `read_tmpfiles` over the config directory entries:
    names without both stem and extension, and non-`.conf` extensions,
    are skipped entirely; a `.conf` file whose stem is valid UTF-8 (the
    `stem.as_str()` guard) and starts with the reserved marker
    increments the generation count, and its lines are scanned into the
    map. -/
def read_tmpfiles_files (m : TmpfilesMap) (gen : Nat) :
    List ConfFile → Except Err (TmpfilesMap × Nat)
  | [] => .ok (m, gen)
  | f :: rest =>
    match file_stem_ext f.1 with
    | none => read_tmpfiles_files m gen rest
    | some (stem, ext) =>
      if ext != asciiBytes "conf" then read_tmpfiles_files m gen rest
      else
        match read_tmpfiles_lines m f.2 with
        | .error e => .error e
        | .ok m' =>
          read_tmpfiles_files m'
            (if isValidUtf8 stem && autogenStem.isPrefixOf stem then gen + 1 else gen) rest

/-- Rust `read_tmpfiles`: an absent config directory (`open_dir_optional`
    returning `None`) yields an empty map and generation zero. -/
def read_tmpfiles (conf : Option (List ConfFile)) : Except Err (TmpfilesMap × Nat) :=
  match conf with
  | none => .ok ([], 0)
  | some files => read_tmpfiles_files [] 0 files

/-- The parts of the target root the conversion touches: the children of
    `var`, and the tmpfiles.d config directory (`none` when the
    directory does not exist). -/
structure Rootfs where
  varChildren : FsTree
  conf : Option (List ConfFile)

/-- Rust `TmpfilesWrittenResult`, extended with the path of the file the
    run wrote through `atomic_replace_with` (`none` when no file was
    written). `generated` carries the nonzero entry count and the output
    path. -/
structure TmpfilesWrittenResult where
  generated : Option (Nat × List Nat)
  unsupported : Nat
  written : Option (List Nat)
deriving DecidableEq, Repr

/-- The tail of `var_to_tmpfiles` after its precondition checks: run the
    destructive walk from `/var`; with no entries, return the default
    result without writing; otherwise write the generation file and
    report the entry count, output path and unsupported count. -/
def var_to_tmpfiles_write (users groups : Nat → Option (List Nat)) (t : FsTree)
    (existing : TmpfilesMap) (gen : Nat) : Except Err TmpfilesWrittenResult :=
  match convert_path_to_tmpfiles_d_recurse users groups existing false
      (asciiBytes "/var") ⟨[], [], []⟩ t with
  | .error e => .error e
  | .ok st =>
    if st.entries.isEmpty then .ok ⟨none, 0, none⟩
    else .ok ⟨some (st.entries.length, generationPath gen), st.unsupported.length,
              some (generationPath gen)⟩

/-- Rust `var_to_tmpfiles`: scan the existing config, enforce that a
    `var/run` child is a symlink and that the tmpfiles.d directory
    exists, then convert destructively and write. -/
def var_to_tmpfiles (users groups : Nat → Option (List Nat)) (r : Rootfs) :
    Except Err TmpfilesWrittenResult :=
  match read_tmpfiles r.conf with
  | .error e => .error e
  | .ok (existing, gen) =>
    if varRunNonSymlink r.varChildren then .error .foundVarRunNonSymlink
    else if r.conf.isNone then .error .missingTmpfilesDir
    else var_to_tmpfiles_write users groups r.varChildren existing gen

/-- Rust `find_missing_tmpfiles_current_root` (minus the ambient-root and
    identity-snapshot plumbing): the same walk in read-only mode,
    returning the would-be entries and the unsupported paths, writing and
    deleting nothing. -/
def find_missing_tmpfiles (users groups : Nat → Option (List Nat)) (r : Rootfs) :
    Except Err (List (List Nat) × List (List Nat)) :=
  match read_tmpfiles r.conf with
  | .error e => .error e
  | .ok (existing, _) =>
    match convert_path_to_tmpfiles_d_recurse users groups existing true
        (asciiBytes "/var") ⟨[], [], []⟩ r.varChildren with
    | .error e => .error e
    | .ok st => .ok (st.entries, st.unsupported)

theorem compSplitAux_varrun (s : List Nat) :
    compSplitAux [] (asciiBytes "/var/run/" ++ s)
      = [118, 97, 114] :: [114, 117, 110] :: compSplitAux [] s := rfl

theorem compSplitAux_run (s : List Nat) :
    compSplitAux [] (asciiBytes "/run/" ++ s) = [114, 117, 110] :: compSplitAux [] s := rfl

theorem startsWithVarRun_varrun (s : List Nat) :
    startsWithVarRun (asciiBytes "/var/run/" ++ s) = true := by
  simp [startsWithVarRun, compSplitAux_varrun, List.isPrefixOf, asciiBytes]

theorem startsWithVarRun_run (s : List Nat) :
    startsWithVarRun (asciiBytes "/run/" ++ s) = false := by
  simp [startsWithVarRun, compSplitAux_run, List.isPrefixOf, asciiBytes]

theorem drop4_varrun (s : List Nat) :
    (asciiBytes "/var/run/" ++ s).drop 4 = asciiBytes "/run/" ++ s := rfl

/-- C6: `tmpfiles_entry_get_path` extracts the declared path by skipping
    leading whitespace, the entire first whitespace-delimited token and
    the following whitespace before unescaping, and so tolerates extra
    leading whitespace, multi-character type fields such as `a+`, quoted
    paths with embedded spaces, and hex-escaped paths such as
    two literal spaces encoded `\x20\x20`. -/
theorem c6_parse_declared_path_tolerance :
    tmpfiles_entry_get_path (asciiBytes "   d /foo 0755 root root -")
      = .ok (asciiBytes "/foo")
  ∧ tmpfiles_entry_get_path (asciiBytes "z /dev/kvm          0666 - kvm -")
      = .ok (asciiBytes "/dev/kvm")
  ∧ tmpfiles_entry_get_path
      (asciiBytes "a+      /var/lib/tpm2-tss/system/keystore   -    -    -     -           default:group:tss:rwx")
      = .ok (asciiBytes "/var/lib/tpm2-tss/system/keystore")
  ∧ tmpfiles_entry_get_path (asciiBytes "d \"/run/file with spaces/foo\" 0700 root root -")
      = .ok (asciiBytes "/run/file with spaces/foo")
  ∧ tmpfiles_entry_get_path (asciiBytes "d /spaces\\x20\\x20here/foo 0700 root root -")
      = .ok (asciiBytes "/spaces  here/foo") := by
  refine ⟨by decide, by decide, by decide, by decide, by decide⟩

/-- C7: `canonicalize_escape_path` strips the leading `/var` from every
    path that begins with the `/var/run` prefix before escaping and
    escapes every other path unchanged; in particular the canonical
    escape of a path below `/var/run` agrees with the canonical escape
    and with the plain escape of the corresponding `/run` path. -/
theorem c7_canonicalize_var_run (s p : List Nat) :
    canonicalize_escape_path (asciiBytes "/var/run/" ++ s)
      = escape_path (asciiBytes "/run/" ++ s)
  ∧ canonicalize_escape_path (asciiBytes "/run/" ++ s)
      = escape_path (asciiBytes "/run/" ++ s)
  ∧ (startsWithVarRun p = false → canonicalize_escape_path p = escape_path p)
  ∧ (startsWithVarRun p = true → canonicalize_escape_path p = escape_path (p.drop 4)) := by
  refine ⟨?_, ?_, ?_, ?_⟩
  · rw [canonicalize_escape_path, startsWithVarRun_varrun, if_pos rfl, drop4_varrun]
  · rw [canonicalize_escape_path, startsWithVarRun_run]
    simp
  · intro h
    rw [canonicalize_escape_path, h]
    simp
  · intro h
    rw [canonicalize_escape_path, h]
    simp

/-- Witness for C7 at concrete inputs: the canonicalization of
    `/var/run/x` agrees with the escape of `/run/x`, and a path not
    below `/var/run` is escaped unchanged. -/
theorem c7_canonicalize_var_run_witness :
    canonicalize_escape_path (asciiBytes "/var/run/" ++ asciiBytes "x")
      = escape_path (asciiBytes "/run/" ++ asciiBytes "x")
  ∧ canonicalize_escape_path (asciiBytes "/var/x") = escape_path (asciiBytes "/var/x") :=
  ⟨(c7_canonicalize_var_run (asciiBytes "x") (asciiBytes "/var/x")).1,
   (c7_canonicalize_var_run (asciiBytes "x") (asciiBytes "/var/x")).2.2.1 (by decide)⟩

theorem shouldTake_false_iff (c : Nat) :
    shouldTake false c = true ↔ (c ≠ 32 ∧ c ≠ 9 ∧ c ≠ 10 ∧ c ≠ 12 ∧ c ≠ 13) := by
  simp [shouldTake, isAsciiWhitespace, and_assoc]

theorem impl_unescape_fast (p : List Nat)
    (h : p.all (fun c => isAsciiAlphanumeric c || c == 47) = true) :
    impl_unescape_path_until false p = .ok p := by
  induction p with
  | nil => rfl
  | cons c t ih =>
    rw [List.all_cons, Bool.and_eq_true] at h
    obtain ⟨hc, ht⟩ := h
    have hcd : (48 ≤ c ∧ c ≤ 57) ∨ (65 ≤ c ∧ c ≤ 90) ∨ (97 ≤ c ∧ c ≤ 122) ∨ c = 47 := by
      simp only [isAsciiAlphanumeric, Bool.or_eq_true, Bool.and_eq_true, decide_eq_true_eq,
        beq_iff_eq] at hc
      tauto
    have hws : shouldTake false c = true := by
      rw [shouldTake_false_iff]
      omega
    have hnb : (c != 92) = true := by
      simp only [bne_iff_ne, ne_eq]
      omega
    unfold impl_unescape_path_until
    simp [hws, hnb, ih ht, Except.map]

theorem hexVal_hexDigit (d : Nat) (h : d < 16) : hexVal (hexDigit d) = some d := by
  unfold hexVal hexDigit
  by_cases h10 : d < 10
  · rw [if_pos h10]
    rw [if_pos (by simp only [Bool.and_eq_true, decide_eq_true_eq]; omega)]
    simp only [Option.some.injEq]
    omega
  · rw [if_neg h10]
    rw [if_neg (by simp only [Bool.and_eq_true, decide_eq_true_eq]; omega)]
    rw [if_pos (by simp only [Bool.and_eq_true, decide_eq_true_eq]; omega)]
    simp only [Option.some.injEq]
    omega

theorem fromStrRadix2_hexDigit (c : Nat) (h : c < 256) :
    fromStrRadix2 (hexDigit (c / 16 % 16)) (hexDigit (c % 16)) = some c := by
  have hhi : c / 16 % 16 = c / 16 := by omega
  have hhi16 : c / 16 < 16 := by omega
  have hlo16 : c % 16 < 16 := by omega
  have hne43 : (hexDigit (c / 16 % 16) == 43) = false := by
    simp only [hexDigit, beq_eq_false_iff_ne, ne_eq]
    split <;> omega
  rw [fromStrRadix2, hne43]
  simp only [Bool.false_eq_true, if_false]
  rw [hexVal_hexDigit _ (by omega), hexVal_hexDigit _ hlo16]
  simp only [Option.some.injEq]
  omega

theorem printable_ranges (c : Nat)
    (h : (isAsciiAlphanumeric c || isAsciiPunctuation c) = true) :
    33 ≤ c ∧ c ≤ 126 := by
  simp only [isAsciiAlphanumeric, isAsciiPunctuation, Bool.or_eq_true, Bool.and_eq_true,
    decide_eq_true_eq] at h
  omega

theorem impl_unescape_escBytes (p : List Nat) (hb : ∀ c ∈ p, c < 256) :
    impl_unescape_path_until false (p.flatMap escByte) = .ok p := by
  induction p with
  | nil => rfl
  | cons c t ih =>
    have hc : c < 256 := hb c (List.mem_cons_self c t)
    have iht := ih (fun x hx => hb x (List.mem_cons_of_mem c hx))
    rw [List.flatMap_cons]
    by_cases hpr : ((isAsciiAlphanumeric c || isAsciiPunctuation c) && c != 92) = true
    · have hesc : escByte c = [c] := by rw [escByte, if_pos hpr]
      rw [hesc]
      have hrange := printable_ranges c (Bool.and_eq_true _ _ |>.mp hpr).1
      have hws : shouldTake false c = true := by
        rw [shouldTake_false_iff]
        omega
      have hnb : (c != 92) = true := (Bool.and_eq_true _ _ |>.mp hpr).2
      show impl_unescape_path_until false (c :: t.flatMap escByte) = .ok (c :: t)
      unfold impl_unescape_path_until
      simp [hws, hnb, iht, Except.map]
    · have hesc : escByte c = if c == 92 then [92, 92] else if c == 10 then [92, 110]
          else if c == 9 then [92, 116] else if c == 13 then [92, 114]
          else 92 :: 120 :: hex2 c := by rw [escByte, if_neg hpr]
      by_cases h92 : c = 92
      · subst h92
        rw [hesc]
        simp only [show ((92 : Nat) == 92) = true from rfl, if_true]
        show impl_unescape_path_until false (92 :: 92 :: t.flatMap escByte) = .ok (92 :: t)
        unfold impl_unescape_path_until
        simp [shouldTake, isAsciiWhitespace, iht, Except.map]
      · by_cases h10 : c = 10
        · subst h10
          rw [hesc]
          norm_num
          show impl_unescape_path_until false (92 :: 110 :: t.flatMap escByte) = .ok (10 :: t)
          unfold impl_unescape_path_until
          simp [shouldTake, isAsciiWhitespace, iht, Except.map]
        · by_cases h9 : c = 9
          · subst h9
            rw [hesc]
            norm_num
            show impl_unescape_path_until false (92 :: 116 :: t.flatMap escByte) = .ok (9 :: t)
            unfold impl_unescape_path_until
            simp [shouldTake, isAsciiWhitespace, iht, Except.map]
          · by_cases h13 : c = 13
            · subst h13
              rw [hesc]
              norm_num
              show impl_unescape_path_until false (92 :: 114 :: t.flatMap escByte) = .ok (13 :: t)
              unfold impl_unescape_path_until
              simp [shouldTake, isAsciiWhitespace, iht, Except.map]
            · have hesc2 : escByte c = 92 :: 120 :: hex2 c := by
                rw [hesc, if_neg (by simpa using h92), if_neg (by simpa using h10),
                  if_neg (by simpa using h9), if_neg (by simpa using h13)]
              rw [hesc2, hex2]
              show impl_unescape_path_until false
                  (92 :: 120 :: hexDigit (c / 16 % 16) :: hexDigit (c % 16) :: t.flatMap escByte)
                  = .ok (c :: t)
              unfold impl_unescape_path_until
              simp [shouldTake, isAsciiWhitespace, fromStrRadix2_hexDigit c hc, iht, Except.map]

theorem escByte_head_cases (c : Nat) :
    (escByte c).head? = some c ∨ (escByte c).head? = some 92 := by
  unfold escByte
  split_ifs <;> simp [hex2]

theorem flatMap_escByte_head_ne_quote (c : Nat) (t : List Nat) (h : c ≠ 34) :
    ∀ r, (c :: t).flatMap escByte = 34 :: r → False := by
  intro r hr
  rw [List.flatMap_cons] at hr
  rcases escByte_head_cases c with hh | hh <;>
    · rcases List.head?_eq_some_iff.mp hh with ⟨l, hl⟩
      rw [hl] at hr
      simp only [List.cons_append, List.cons.injEq] at hr
      omega

/-- C2 (amended): unescaping inverts escaping for every non-empty byte
    path whose first byte is not a double quote: this covers all paths
    of printable ASCII and the control bytes newline, tab, carriage
    return, backslash and space (indeed all byte values). A path whose
    first byte is `"` is the single exception, see the counterexample. -/
theorem c2_escape_unescape_roundtrip (p : List Nat) (hne : p ≠ [])
    (hq : p.head? ≠ some 34) (hb : ∀ c ∈ p, c < 256) :
    ∃ e, escape_path p = some e ∧ unescape_path e = .ok p := by
  have hemp : p.isEmpty = false := by
    cases p with
    | nil => exact absurd rfl hne
    | cons a t => rfl
  by_cases hfast : p.all (fun c => isAsciiAlphanumeric c || c == 47) = true
  · refine ⟨p, ?_, ?_⟩
    · rw [escape_path, hemp]
      simp [hfast]
    · rw [unescape_path.eq_def]
      split
      · simp at hq
      · exact impl_unescape_fast p hfast
  · refine ⟨p.flatMap escByte, ?_, ?_⟩
    · rw [escape_path, hemp]
      simp [hfast]
    · rw [unescape_path.eq_def]
      split
      · rename_i rest heq
        cases p with
        | nil => exact absurd rfl hne
        | cons c t =>
          have hc : c ≠ 34 := by
            intro hcc
            exact hq (by rw [hcc]; rfl)
          exact absurd heq (fun hh => flatMap_escByte_head_ne_quote c t hc rest hh)
      · exact impl_unescape_escBytes p hb

/-- Witness for C2 at the concrete path `/a b` (printable ASCII with a
    space): escaping then unescaping returns the original bytes. -/
theorem c2_escape_unescape_roundtrip_witness :
    asciiBytes "/a b" ≠ [] ∧ (asciiBytes "/a b").head? ≠ some 34
  ∧ (∃ e, escape_path (asciiBytes "/a b") = some e
      ∧ unescape_path e = .ok (asciiBytes "/a b")) :=
  ⟨by decide, by decide,
   c2_escape_unescape_roundtrip (asciiBytes "/a b") (by decide) (by decide) (by decide)⟩

/-- Counterexample to C2 as stated: the one-byte path consisting of a
    double quote (a printable ASCII byte) does not round-trip; its
    escaped form is itself, and unescaping that yields the empty path. -/
theorem c2_counterexample :
    isAsciiPunctuation 34 = true
  ∧ escape_path [34] = some [34]
  ∧ unescape_path [34] = .ok []
  ∧ ([] : List Nat) ≠ [34] := by
  refine ⟨rfl, by decide, by decide, by decide⟩

/-- Whether an `Except` computation succeeded. -/
def isOkE {α : Type} (x : Except Err α) : Bool :=
  match x with
  | .ok _ => true
  | .error _ => false

theorem isOkE_map {α β : Type} (f : α → β) (x : Except Err α) :
    isOkE (x.map f) = isOkE x := by
  cases x <;> rfl

/-- The well-formed escape streams: the inputs on which
    `impl_unescape_path_until` succeeds. A stream is consumed until its
    end or until the mode's stop byte; each consumed byte is either a
    literal or one of the escapes `\\`, `\n`, `\r`, `\t`, `\xHH` with a
    two-byte radix-16 payload. Note that ending the stream without
    having seen the stop byte (an unterminated quote in quoted mode) is
    well-formed. -/
inductive GoodEsc (q : Bool) : List Nat → Prop where
  | nil : GoodEsc q []
  | stop (c : Nat) (s : List Nat) : shouldTake q c = false → GoodEsc q (c :: s)
  | lit (c : Nat) (s : List Nat) : shouldTake q c = true → c ≠ 92 → GoodEsc q s →
      GoodEsc q (c :: s)
  | esc (c2 : Nat) (s : List Nat) : (c2 = 92 ∨ c2 = 110 ∨ c2 = 114 ∨ c2 = 116) →
      GoodEsc q s → GoodEsc q (92 :: c2 :: s)
  | hex (a b : Nat) (s : List Nat) : (fromStrRadix2 a b).isSome → GoodEsc q s →
      GoodEsc q (92 :: 120 :: a :: b :: s)

theorem shouldTake_92 (q : Bool) : shouldTake q 92 = true := by
  cases q <;> decide

theorem goodEsc_of_ok (q : Bool) (s : List Nat)
    (h : isOkE (impl_unescape_path_until q s) = true) : GoodEsc q s := by
  induction s using impl_unescape_path_until.induct q with
  | case1 => exact .nil
  | case2 =>
    rename_i c rest hstop
    exact .stop c rest (by simpa using hstop)
  | case3 =>
    rename_i c rest hws hnb ih
    have hws' : shouldTake q c = true := by simpa using hws
    have hnb' : c ≠ 92 := by simpa using hnb
    refine .lit c rest hws' hnb' (ih ?_)
    unfold impl_unescape_path_until at h
    simp only [hws', Bool.not_true, Bool.false_eq_true, if_false, hnb, if_true,
      isOkE_map] at h
    exact h
  | case4 =>
    rename_i c hws hnb
    have hc : c = 92 := by simpa using hnb
    subst hc
    unfold impl_unescape_path_until at h
    simp [shouldTake_92, isOkE] at h
  | case5 =>
    rename_i c hws hnb c2 rest hc2 ih
    have hc : c = 92 := by simpa using hnb
    have hc2' : c2 = 92 := by simpa using hc2
    subst hc hc2'
    unfold impl_unescape_path_until at h
    simp only [shouldTake_92, Bool.not_true, Bool.false_eq_true, if_false,
      show ((92 : Nat) != 92) = false from rfl, show ((92 : Nat) == 92) = true from rfl,
      if_true, isOkE_map] at h
    exact .esc 92 rest (Or.inl rfl) (ih h)
  | case6 =>
    rename_i c hws hnb c2 rest h92 h110 ih
    have hc : c = 92 := by simpa using hnb
    have hc2' : c2 = 110 := by simpa using h110
    subst hc hc2'
    unfold impl_unescape_path_until at h
    simp only [shouldTake_92, Bool.not_true, Bool.false_eq_true, if_false,
      show ((92 : Nat) != 92) = false from rfl, show ((110 : Nat) == 92) = false from rfl,
      show ((110 : Nat) == 110) = true from rfl, if_true, isOkE_map] at h
    exact .esc 110 rest (Or.inr (Or.inl rfl)) (ih h)
  | case7 =>
    rename_i c hws hnb c2 rest h92 h110 h114 ih
    have hc : c = 92 := by simpa using hnb
    have hc2' : c2 = 114 := by simpa using h114
    subst hc hc2'
    unfold impl_unescape_path_until at h
    simp only [shouldTake_92, Bool.not_true, Bool.false_eq_true, if_false,
      show ((92 : Nat) != 92) = false from rfl, show ((114 : Nat) == 92) = false from rfl,
      show ((114 : Nat) == 110) = false from rfl, show ((114 : Nat) == 114) = true from rfl,
      if_true, isOkE_map] at h
    exact .esc 114 rest (Or.inr (Or.inr (Or.inl rfl))) (ih h)
  | case8 =>
    rename_i c hws hnb c2 rest h92 h110 h114 h116 ih
    have hc : c = 92 := by simpa using hnb
    have hc2' : c2 = 116 := by simpa using h116
    subst hc hc2'
    unfold impl_unescape_path_until at h
    simp only [shouldTake_92, Bool.not_true, Bool.false_eq_true, if_false,
      show ((92 : Nat) != 92) = false from rfl, show ((116 : Nat) == 92) = false from rfl,
      show ((116 : Nat) == 110) = false from rfl, show ((116 : Nat) == 114) = false from rfl,
      show ((116 : Nat) == 116) = true from rfl, if_true, isOkE_map] at h
    exact .esc 116 rest (Or.inr (Or.inr (Or.inr rfl))) (ih h)
  | case9 =>
    rename_i c hws hnb c2 h92 h110 h114 h116 h120
    have hc : c = 92 := by simpa using hnb
    have hc2' : c2 = 120 := by simpa using h120
    subst hc hc2'
    unfold impl_unescape_path_until at h
    simp [shouldTake_92, isOkE] at h
  | case10 =>
    rename_i c hws hnb c2 h92 h110 h114 h116 h120 hd
    have hc : c = 92 := by simpa using hnb
    have hc2' : c2 = 120 := by simpa using h120
    subst hc hc2'
    unfold impl_unescape_path_until at h
    simp [shouldTake_92, isOkE] at h
  | case11 =>
    rename_i c hws hnb c2 h92 h110 h114 h116 h120 a b rest3 hrad
    have hc : c = 92 := by simpa using hnb
    have hc2' : c2 = 120 := by simpa using h120
    subst hc hc2'
    unfold impl_unescape_path_until at h
    simp [shouldTake_92, hrad, isOkE] at h
  | case12 =>
    rename_i c hws hnb c2 h92 h110 h114 h116 h120 a b rest3 v hrad ih
    have hc : c = 92 := by simpa using hnb
    have hc2' : c2 = 120 := by simpa using h120
    subst hc hc2'
    unfold impl_unescape_path_until at h
    simp only [shouldTake_92, Bool.not_true, Bool.false_eq_true, if_false,
      show ((92 : Nat) != 92) = false from rfl, show ((120 : Nat) == 92) = false from rfl,
      show ((120 : Nat) == 110) = false from rfl, show ((120 : Nat) == 114) = false from rfl,
      show ((120 : Nat) == 116) = false from rfl, show ((120 : Nat) == 120) = true from rfl,
      if_true, hrad, isOkE_map] at h
    exact .hex a b rest3 (by rw [hrad]; rfl) (ih h)
  | case13 =>
    rename_i c hws hnb c2 rest2 h92 h110 h114 h116 h120
    have hc : c = 92 := by simpa using hnb
    subst hc
    unfold impl_unescape_path_until at h
    simp [shouldTake_92, h92, h110, h114, h116, h120, isOkE] at h

theorem ok_of_goodEsc (q : Bool) (s : List Nat) (h : GoodEsc q s) :
    isOkE (impl_unescape_path_until q s) = true := by
  induction h with
  | nil => rfl
  | stop c s hst =>
    unfold impl_unescape_path_until
    simp [hst, isOkE]
  | lit c s hst hnb _ ih =>
    unfold impl_unescape_path_until
    simp only [hst, Bool.not_true, Bool.false_eq_true, if_false,
      show (c != 92) = true by simpa using hnb, if_true, isOkE_map]
    exact ih
  | esc c2 s hor _ ih =>
    unfold impl_unescape_path_until
    rcases hor with h' | h' | h' | h' <;> subst h' <;>
      simpa [shouldTake_92, isOkE_map] using ih
  | hex a b s hsome _ ih =>
    obtain ⟨v, hv⟩ := Option.isSome_iff_exists.mp hsome
    unfold impl_unescape_path_until
    simp only [shouldTake_92, Bool.not_true, Bool.false_eq_true, if_false,
      show ((92 : Nat) != 92) = false from rfl, show ((120 : Nat) == 92) = false from rfl,
      show ((120 : Nat) == 110) = false from rfl, show ((120 : Nat) == 114) = false from rfl,
      show ((120 : Nat) == 116) = false from rfl, show ((120 : Nat) == 120) = true from rfl,
      if_true, hv, isOkE_map]
    exact ih

/-- The path field of a tmpfiles.d line: what remains after the leading
    whitespace, the type token and the separating whitespace. -/
def path_field (line : List Nat) : List Nat :=
  ((line.dropWhile isAsciiWhitespace).dropWhile
      (fun c => !(isAsciiWhitespace c))).dropWhile isAsciiWhitespace

/-- Quote-mode decomposition of a path field, as `unescape_path` does it:
    a leading `"` is consumed and switches to quoted mode. -/
def path_mode_body (s : List Nat) : Bool × List Nat :=
  match s with
  | 34 :: r => (true, r)
  | r => (false, r)

theorem unescape_path_eq_mode (s : List Nat) :
    unescape_path s
      = impl_unescape_path_until (path_mode_body s).1 (path_mode_body s).2 := by
  rw [unescape_path.eq_def, path_mode_body.eq_def]
  split <;> rfl

/-- C3 (amended): parsing a non-empty non-comment line of an existing
    tmpfiles.d file fails (fatally for the whole scan, second conjunct)
    exactly when the line has no type token (only whitespace) or its
    path field violates the escape grammar `GoodEsc`: a trailing
    backslash, an unrecognized escape character, or a `\x` not followed
    by two bytes parsing as a radix-16 byte. An unterminated quoted
    path is well-formed (`GoodEsc` accepts end of input in quoted mode)
    and parses successfully, contrary to the claim as stated — see the
    counterexample. -/
theorem c3_malformed_line_characterization (line : List Nat) :
    (isOkE (tmpfiles_entry_get_path line) = false
      ↔ (line.dropWhile isAsciiWhitespace = []
          ∨ ¬ GoodEsc (path_mode_body (path_field line)).1
                (path_mode_body (path_field line)).2))
  ∧ (∀ m rest e, line.isEmpty = false → line.head? ≠ some 35 →
      tmpfiles_entry_get_path line = .error e →
      read_tmpfiles_lines m (line :: rest) = .error e) := by
  constructor
  · unfold tmpfiles_entry_get_path
    by_cases hemp : (line.dropWhile isAsciiWhitespace).isEmpty = true
    · rw [if_pos hemp]
      constructor
      · intro _
        exact Or.inl (List.isEmpty_iff.mp hemp)
      · intro _
        rfl
    · rw [if_neg hemp]
      have hne : line.dropWhile isAsciiWhitespace ≠ [] := by
        intro hh
        exact hemp (by simp [hh])
      rw [unescape_path_eq_mode]
      show isOkE (impl_unescape_path_until (path_mode_body (path_field line)).1
          (path_mode_body (path_field line)).2) = false ↔ _
      constructor
      · intro hf
        refine Or.inr (fun hg => ?_)
        have hok := ok_of_goodEsc _ _ hg
        rw [hok] at hf
        exact absurd hf (by decide)
      · intro hor
        rcases hor with hl | hr
        · exact absurd hl hne
        · cases hisok : isOkE (impl_unescape_path_until (path_mode_body (path_field line)).1
              (path_mode_body (path_field line)).2)
          · rfl
          · exact absurd (goodEsc_of_ok _ _ hisok) hr
  · intro m rest e hne h35 herr
    have hcond : (line.isEmpty || line.head? == some 35) = false := by
      simp only [hne, Bool.false_or]
      exact beq_eq_false_iff_ne.mpr h35
    unfold read_tmpfiles_lines
    simp only [hcond, Bool.false_eq_true, if_false]
    rw [herr]

/-- Witness for C3 at the concrete line `d \q` (an unrecognized escape
    character): the line parse fails and aborts the whole line scan. -/
theorem c3_malformed_line_characterization_witness :
    read_tmpfiles_lines [] [asciiBytes "d \\q"] = .error .malformedTmpfilesPath :=
  (c3_malformed_line_characterization (asciiBytes "d \\q")).2 [] []
    .malformedTmpfilesPath (by decide) (by decide) (by decide)

/-- Counterexample to C3 as stated: a line whose quoted path is
    unterminated does not fail; the path extends to the end of the
    line and parsing succeeds. -/
theorem c3_counterexample :
    tmpfiles_entry_get_path (asciiBytes "d \"/foo") = .ok (asciiBytes "/foo") := by
  decide

/-- Whether a config file counts toward the generation: it has both stem
    and extension, the extension is `conf`, and the stem is valid UTF-8
    (the `stem.as_str()` guard of the source) and starts with the
    reserved auto-generated marker. -/
def isAutogenConf (f : ConfFile) : Bool :=
  match file_stem_ext f.1 with
  | some (stem, ext) =>
    ext == asciiBytes "conf" && (isValidUtf8 stem && autogenStem.isPrefixOf stem)
  | none => false

theorem read_tmpfiles_files_count (fs : List ConfFile) :
    ∀ m g m' g', read_tmpfiles_files m g fs = .ok (m', g') →
      g' = g + fs.countP isAutogenConf := by
  induction fs with
  | nil =>
    intro m g m' g' h
    have h' : (Except.ok (m, g) : Except Err (TmpfilesMap × Nat)) = .ok (m', g') := h
    simp only [Except.ok.injEq, Prod.mk.injEq] at h'
    obtain ⟨rfl, rfl⟩ := h'
    simp
  | cons f rest ih =>
    intro m g m' g' h
    rw [read_tmpfiles_files] at h
    rw [List.countP_cons]
    split at h
    · rename_i hse
      rw [show isAutogenConf f = false by unfold isAutogenConf; rw [hse]]
      simpa using ih m g m' g' h
    · rename_i stem ext hse
      have hfa : isAutogenConf f
          = (ext == asciiBytes "conf" && (isValidUtf8 stem && autogenStem.isPrefixOf stem)) := by
        unfold isAutogenConf
        rw [hse]
      split at h
      · rename_i hext
        rw [hfa, show (ext == asciiBytes "conf") = false by simpa using hext, Bool.false_and]
        simpa using ih m g m' g' h
      · rename_i hext
        rw [hfa, show (ext == asciiBytes "conf") = true by simpa using hext, Bool.true_and]
        split at h
        · exact absurd h (by simp)
        · rename_i m1 hlines
          by_cases hpre : (isValidUtf8 stem && autogenStem.isPrefixOf stem) = true
          · rw [if_pos hpre] at h
            rw [hpre, if_pos rfl]
            have := ih m1 (g + 1) m' g' h
            omega
          · rw [if_neg hpre] at h
            rw [Bool.not_eq_true] at hpre
            rw [hpre]
            have := ih m1 g m' g' h
            simp only [Bool.false_eq_true, if_false]
            omega

/-- C9: the generation count returned by the scan counts exactly the
    `.conf` files whose stem is valid UTF-8 and starts with the reserved
    marker (the stem must pass the `as_str()` guard); an absent
    config directory yields generation zero with an empty map; the
    output file of a run that produced entries is the generation path,
    which is `usr/lib/tmpfiles.d/bootc-autogenerated-var-0.conf` for
    the first run and `...-1.conf` once one generated file exists. -/
theorem c9_generation_counting :
    read_tmpfiles none = .ok ([], 0)
  ∧ (∀ files m g, read_tmpfiles (some files) = .ok (m, g) →
      g = files.countP isAutogenConf)
  ∧ (∀ users groups t existing gen st,
      convert_path_to_tmpfiles_d_recurse users groups existing false
        (asciiBytes "/var") ⟨[], [], []⟩ t = .ok st →
      st.entries ≠ [] →
      var_to_tmpfiles_write users groups t existing gen
        = .ok ⟨some (st.entries.length, generationPath gen), st.unsupported.length,
               some (generationPath gen)⟩)
  ∧ generationPath 0 = asciiBytes "usr/lib/tmpfiles.d/bootc-autogenerated-var-0.conf"
  ∧ generationPath 1 = asciiBytes "usr/lib/tmpfiles.d/bootc-autogenerated-var-1.conf"
  ∧ List.countP isAutogenConf
      [(asciiBytes "bootc-autogenerated-var-0.conf", ([] : List (List Nat)))] = 1 := by
  refine ⟨rfl, ?_, ?_, by decide, by decide, by decide⟩
  · intro files m g h
    exact (read_tmpfiles_files_count files [] 0 m g h).trans (by simp)
  · intro users groups t existing gen st hw hne
    simp only [var_to_tmpfiles_write, hw]
    rw [if_neg (fun hh => hne (List.isEmpty_iff.mp hh))]

/-- Witness for C9: scanning a directory holding exactly the first
    generated file yields generation count 1, and a run over a
    one-directory tree writes the generation-0 file. -/
theorem c9_generation_counting_witness :
    (1 : Nat) = List.countP isAutogenConf
      [(asciiBytes "bootc-autogenerated-var-0.conf", ([] : List (List Nat)))]
  ∧ var_to_tmpfiles_write (fun _ => some (asciiBytes "root"))
      (fun _ => some (asciiBytes "root"))
      (.dir (asciiBytes "lib") 493 0 0 false .nil .nil) [] 0
      = .ok ⟨some (1, generationPath 0), 0, some (generationPath 0)⟩ := by
  constructor
  · exact (c9_generation_counting.2.1
      [(asciiBytes "bootc-autogenerated-var-0.conf", ([] : List (List Nat)))] [] 1 (by decide))
  · exact (c9_generation_counting.2.2.1 (fun _ => some (asciiBytes "root"))
      (fun _ => some (asciiBytes "root")) (.dir (asciiBytes "lib") 493 0 0 false .nil .nil)
      [] 0 ⟨[asciiBytes "d /var/lib 0755 root root - -"], [], [asciiBytes "/var/lib"]⟩
      (by decide) (by decide))

/-- C8: with the config scan succeeding, a destructive run fails with
    the distinct error `foundVarRunNonSymlink` when the `run` child of
    `var` exists as a non-symlink, fails with the distinct error
    `missingTmpfilesDir` when the tmpfiles.d directory is absent (the
    `run` check being performed first), and otherwise raises neither
    error and proceeds with the walk-and-write phase. All of this
    happens before any filesystem object is visited or removed. -/
theorem c8_preconditions (users groups : Nat → Option (List Nat)) (r : Rootfs)
    (m : TmpfilesMap) (g : Nat) (hrt : read_tmpfiles r.conf = .ok (m, g)) :
    (varRunNonSymlink r.varChildren = true →
      var_to_tmpfiles users groups r = .error .foundVarRunNonSymlink)
  ∧ (varRunNonSymlink r.varChildren = false → r.conf = none →
      var_to_tmpfiles users groups r = .error .missingTmpfilesDir)
  ∧ (varRunNonSymlink r.varChildren = false → r.conf ≠ none →
      var_to_tmpfiles users groups r
        = var_to_tmpfiles_write users groups r.varChildren m g) := by
  have hchecks : var_to_tmpfiles users groups r
      = if varRunNonSymlink r.varChildren = true then .error .foundVarRunNonSymlink
        else if r.conf.isNone = true then .error .missingTmpfilesDir
        else var_to_tmpfiles_write users groups r.varChildren m g := by
    rw [var_to_tmpfiles, hrt]
  refine ⟨?_, ?_, ?_⟩
  · intro hvr
    rw [hchecks, if_pos hvr]
  · intro hvr hconf
    rw [hchecks]
    rw [if_neg (by rw [hvr]; exact Bool.false_ne_true)]
    rw [if_pos (by rw [hconf]; rfl)]
  · intro hvr hconf
    rw [hchecks]
    rw [if_neg (by rw [hvr]; exact Bool.false_ne_true)]
    rw [if_neg (by simpa [Option.isNone_iff_eq_none] using hconf)]

/-- Witness for C8 at three concrete roots: a regular-file `var/run`
    trips the first error, a missing config directory trips the second,
    and a clean root proceeds to the write phase. -/
theorem c8_preconditions_witness :
    var_to_tmpfiles (fun _ => some (asciiBytes "root")) (fun _ => some (asciiBytes "root"))
      ⟨.other runNameBytes 0 0 .nil, some []⟩ = .error .foundVarRunNonSymlink
  ∧ var_to_tmpfiles (fun _ => some (asciiBytes "root")) (fun _ => some (asciiBytes "root"))
      ⟨.nil, none⟩ = .error .missingTmpfilesDir
  ∧ var_to_tmpfiles (fun _ => some (asciiBytes "root")) (fun _ => some (asciiBytes "root"))
      ⟨.nil, some []⟩
      = var_to_tmpfiles_write (fun _ => some (asciiBytes "root"))
          (fun _ => some (asciiBytes "root")) .nil [] 0 :=
  ⟨(c8_preconditions _ _ ⟨.other runNameBytes 0 0 .nil, some []⟩ [] 0 (by decide)).1 (by decide),
   (c8_preconditions _ _ ⟨.nil, none⟩ [] 0 (by decide)).2.1 (by decide) rfl,
   (c8_preconditions _ _ ⟨.nil, some []⟩ [] 0 (by decide)).2.2 (by decide) (by decide)⟩

/-- C4: when the destructive walk emits no entries, `var_to_tmpfiles`
    writes no file and returns the default result with `generated`
    empty and an unsupported count of zero, even if the walk recorded
    unsupported paths: the recorded list is discarded. -/
theorem c4_empty_entries_discards_unsupported (users groups : Nat → Option (List Nat))
    (r : Rootfs) (m : TmpfilesMap) (g : Nat) (st : WalkState)
    (hrt : read_tmpfiles r.conf = .ok (m, g))
    (hvr : varRunNonSymlink r.varChildren = false)
    (hconf : r.conf ≠ none)
    (hw : convert_path_to_tmpfiles_d_recurse users groups m false
        (asciiBytes "/var") ⟨[], [], []⟩ r.varChildren = .ok st)
    (hemp : st.entries = []) :
    var_to_tmpfiles users groups r = .ok ⟨none, 0, none⟩ := by
  rw [(c8_preconditions users groups r m g hrt).2.2 hvr hconf]
  simp only [var_to_tmpfiles_write, hw]
  rw [if_pos (by rw [hemp]; rfl)]

/-- Witness for C4: a root whose `var` holds one regular file produces a
    walk with no entries and one unsupported path, and the run result
    discards that count entirely. -/
theorem c4_empty_entries_discards_unsupported_witness :
    var_to_tmpfiles (fun _ => some (asciiBytes "root")) (fun _ => some (asciiBytes "root"))
      ⟨.other (asciiBytes "x") 0 0 .nil, some []⟩ = .ok ⟨none, 0, none⟩
  ∧ convert_path_to_tmpfiles_d_recurse (fun _ => some (asciiBytes "root"))
      (fun _ => some (asciiBytes "root")) [] false (asciiBytes "/var") ⟨[], [], []⟩
      (.other (asciiBytes "x") 0 0 .nil)
      = .ok ⟨[], [asciiBytes "var/x"], []⟩ :=
  ⟨c4_empty_entries_discards_unsupported _ _ ⟨.other (asciiBytes "x") 0 0 .nil, some []⟩
     [] 0 ⟨[], [asciiBytes "var/x"], []⟩ (by decide) (by decide) (by decide)
     (by decide) rfl,
   by decide⟩

/-- Counterexample to C1 as stated: with `/var/lib` already declared in
    the existing-entries map, a destructive walk over a tree containing
    the directory `lib` emits no declaration for it but still deletes
    it; the declared object is not left on disk. -/
theorem c1_counterexample :
    containsKey [(asciiBytes "/var/lib", asciiBytes "d /var/lib 0755 - - -")]
      (asciiBytes "/var/lib") = true
  ∧ convert_path_to_tmpfiles_d_recurse (fun _ => some (asciiBytes "root"))
      (fun _ => some (asciiBytes "root"))
      [(asciiBytes "/var/lib", asciiBytes "d /var/lib 0755 - - -")] false
      (asciiBytes "/var") ⟨[], [], []⟩
      (.dir (asciiBytes "lib") 493 0 0 false .nil .nil)
      = .ok ⟨[], [], [asciiBytes "/var/lib"]⟩ :=
  ⟨by decide, by decide⟩

/-- C1 (amended): an object whose absolute path is already a key of the
    existing-entries map is skipped for declaration (no entry is
    formatted or inserted for it), but it is not left on disk: in a
    destructive run a declared symlink or other non-directory is removed
    immediately, and a declared non-mount-point directory is recursed
    into and then removed recursively; only a declared directory that is
    a distinct mount point is left untouched. -/
theorem c1_amended_declared_paths_deleted (users groups : Nat → Option (List Nat))
    (existing : TmpfilesMap) (readonly : Bool) (pfx nm target : List Nat)
    (st : WalkState) (mode uid gid : Nat) (cs next : FsTree)
    (hdecl : containsKey existing (pfx ++ 47 :: nm) = true) :
    convert_path_to_tmpfiles_d_recurse users groups existing readonly pfx st
        (.symlink nm target uid gid next)
      = convert_path_to_tmpfiles_d_recurse users groups existing readonly pfx
          { st with deleted :=
              st.deleted ++ if readonly then [] else [pfx ++ 47 :: nm] } next
  ∧ convert_path_to_tmpfiles_d_recurse users groups existing readonly pfx st
        (.other nm uid gid next)
      = convert_path_to_tmpfiles_d_recurse users groups existing readonly pfx
          { st with deleted :=
              st.deleted ++ if readonly then [] else [pfx ++ 47 :: nm] } next
  ∧ convert_path_to_tmpfiles_d_recurse users groups existing readonly pfx st
        (.dir nm mode uid gid false cs next)
      = (match convert_path_to_tmpfiles_d_recurse users groups existing readonly
            (pfx ++ 47 :: nm) st cs with
         | .error e => .error e
         | .ok st2 =>
            convert_path_to_tmpfiles_d_recurse users groups existing readonly pfx
              { st2 with deleted :=
                  st2.deleted ++ if readonly then [] else [pfx ++ 47 :: nm] } next)
  ∧ convert_path_to_tmpfiles_d_recurse users groups existing readonly pfx st
        (.dir nm mode uid gid true cs next)
      = convert_path_to_tmpfiles_d_recurse users groups existing readonly pfx st next := by
  refine ⟨?_, ?_, ?_, ?_⟩
  · rw [convert_path_to_tmpfiles_d_recurse]
    rw [if_pos hdecl]
  · rw [convert_path_to_tmpfiles_d_recurse]
    rw [if_pos hdecl]
  · rw [convert_path_to_tmpfiles_d_recurse]
    rw [if_pos hdecl]
    rfl
  · rw [convert_path_to_tmpfiles_d_recurse]
    rw [if_pos hdecl]
    rfl

/-- Witness for C1 (amended) at a concrete declared symlink in a
    destructive run: no declaration emitted, the object deleted. -/
theorem c1_amended_declared_paths_deleted_witness :
    convert_path_to_tmpfiles_d_recurse (fun _ => some (asciiBytes "root"))
      (fun _ => some (asciiBytes "root"))
      [(asciiBytes "/var/lnk", asciiBytes "L /var/lnk - - - - /t")] false
      (asciiBytes "/var") ⟨[], [], []⟩
      (.symlink (asciiBytes "lnk") (asciiBytes "/t") 0 0 .nil)
      = .ok ⟨[], [], [asciiBytes "/var/lnk"]⟩ :=
  (c1_amended_declared_paths_deleted (fun _ => some (asciiBytes "root"))
    (fun _ => some (asciiBytes "root"))
    [(asciiBytes "/var/lnk", asciiBytes "L /var/lnk - - - - /t")] false
    (asciiBytes "/var") (asciiBytes "lnk") (asciiBytes "/t") ⟨[], [], []⟩ 0 0 0
    .nil .nil (by decide)).1

/-- C5: a subdirectory that is a distinct mount point is not recursed
    into (its children contribute nothing whatever they are), is never
    deleted, and adds no unsupported record; the directory object itself
    is declared with exactly one line if and only if its path is not
    already declared. -/
theorem c5_mount_point_isolation (users groups : Nat → Option (List Nat))
    (existing : TmpfilesMap) (readonly : Bool) (pfx nm un gn line : List Nat)
    (st : WalkState) (mode uid gid : Nat) (cs next : FsTree)
    (hu : users uid = some un) (hg : groups gid = some gn)
    (ht : translate_to_tmpfiles_d (pfx ++ 47 :: nm) (.Directory (mode % 4096)) un gn
      = .ok line) :
    convert_path_to_tmpfiles_d_recurse users groups existing readonly pfx st
        (.dir nm mode uid gid true cs next)
      = convert_path_to_tmpfiles_d_recurse users groups existing readonly pfx
          { st with entries :=
              if containsKey existing (pfx ++ 47 :: nm) then st.entries
              else insertSet st.entries line } next := by
  rw [convert_path_to_tmpfiles_d_recurse]
  by_cases hdecl : containsKey existing (pfx ++ 47 :: nm) = true
  · rw [if_pos hdecl, if_pos hdecl]
    rfl
  · rw [if_neg hdecl]
    simp only [resolve_and_translate, hu, hg, ht]
    rw [if_neg hdecl]
    rfl

/-- Witness for C5 at a concrete undeclared mount-point directory with
    children: the children are not visited, nothing is deleted, and the
    directory itself gets its one declaration line. -/
theorem c5_mount_point_isolation_witness :
    convert_path_to_tmpfiles_d_recurse (fun _ => some (asciiBytes "root"))
      (fun _ => some (asciiBytes "root")) [] false (asciiBytes "/var") ⟨[], [], []⟩
      (.dir (asciiBytes "mnt") 493 0 0 true (.other (asciiBytes "child") 0 0 .nil) .nil)
      = .ok ⟨[asciiBytes "d /var/mnt 0755 root root - -"], [], []⟩ :=
  (c5_mount_point_isolation (fun _ => some (asciiBytes "root"))
    (fun _ => some (asciiBytes "root")) [] false (asciiBytes "/var") (asciiBytes "mnt")
    (asciiBytes "root") (asciiBytes "root") (asciiBytes "d /var/mnt 0755 root root - -")
    ⟨[], [], []⟩ 493 0 0 (.other (asciiBytes "child") 0 0 .nil) .nil
    rfl rfl (by decide)).trans (by decide)

/-- C10: for the same input tree and the same existing-entries map, the
    read-only walk produces exactly the same entry set, the same
    unsupported list and the same error behaviour as the destructive
    walk, while performing no deletions itself (its deleted record stays
    at its initial value `d`, whatever deletions `d'` the destructive
    run starts from); in the model the walk performs no writes at all,
    and `find_missing_tmpfiles` returns just the entries and unsupported
    paths of the read-only walk. -/
theorem c10_readonly_mode_equivalence (t : FsTree) :
    ∀ (users groups : Nat → Option (List Nat)) (existing : TmpfilesMap)
      (pfx : List Nat) (e u d d' : List (List Nat)),
    convert_path_to_tmpfiles_d_recurse users groups existing true pfx ⟨e, u, d⟩ t
      = (convert_path_to_tmpfiles_d_recurse users groups existing false pfx ⟨e, u, d'⟩ t).map
          (fun s => ⟨s.entries, s.unsupported, d⟩) := by
  induction t with
  | nil =>
    intro users groups existing pfx e u d d'
    rfl
  | other nm uid gid next ihn =>
    intro users groups existing pfx e u d d'
    rw [convert_path_to_tmpfiles_d_recurse, convert_path_to_tmpfiles_d_recurse]
    by_cases hdecl : containsKey existing (pfx ++ 47 :: nm) = true
    · rw [if_pos hdecl, if_pos hdecl]
      show convert_path_to_tmpfiles_d_recurse users groups existing true pfx
          ⟨e, u, d ++ []⟩ next
        = (convert_path_to_tmpfiles_d_recurse users groups existing false pfx
            ⟨e, u, d' ++ [pfx ++ 47 :: nm]⟩ next).map (fun s => ⟨s.entries, s.unsupported, d⟩)
      rw [List.append_nil]
      exact ihn users groups existing pfx e u d (d' ++ [pfx ++ 47 :: nm])
    · rw [if_neg hdecl, if_neg hdecl]
      exact ihn users groups existing pfx e (u ++ [(pfx ++ 47 :: nm).drop 1]) d d'
  | symlink nm target uid gid next ihn =>
    intro users groups existing pfx e u d d'
    rw [convert_path_to_tmpfiles_d_recurse, convert_path_to_tmpfiles_d_recurse]
    by_cases hdecl : containsKey existing (pfx ++ 47 :: nm) = true
    · rw [if_pos hdecl, if_pos hdecl]
      show convert_path_to_tmpfiles_d_recurse users groups existing true pfx
          ⟨e, u, d ++ []⟩ next
        = (convert_path_to_tmpfiles_d_recurse users groups existing false pfx
            ⟨e, u, d' ++ [pfx ++ 47 :: nm]⟩ next).map (fun s => ⟨s.entries, s.unsupported, d⟩)
      rw [List.append_nil]
      exact ihn users groups existing pfx e u d (d' ++ [pfx ++ 47 :: nm])
    · rw [if_neg hdecl, if_neg hdecl]
      cases hr : resolve_and_translate users groups (pfx ++ 47 :: nm)
          (.Symlink target) uid gid with
      | error err =>
        rfl
      | ok line =>
        show convert_path_to_tmpfiles_d_recurse users groups existing true pfx
            ⟨insertSet e line, u, d ++ []⟩ next
          = (convert_path_to_tmpfiles_d_recurse users groups existing false pfx
              ⟨insertSet e line, u, d' ++ [pfx ++ 47 :: nm]⟩ next).map
              (fun s => ⟨s.entries, s.unsupported, d⟩)
        rw [List.append_nil]
        exact ihn users groups existing pfx (insertSet e line) u d (d' ++ [pfx ++ 47 :: nm])
  | dir nm mode uid gid mount cs next ihc ihn =>
    intro users groups existing pfx e u d d'
    rw [convert_path_to_tmpfiles_d_recurse, convert_path_to_tmpfiles_d_recurse]
    by_cases hdecl : containsKey existing (pfx ++ 47 :: nm) = true
    · rw [if_pos hdecl, if_pos hdecl]
      cases mount with
      | true =>
        show convert_path_to_tmpfiles_d_recurse users groups existing true pfx ⟨e, u, d⟩ next
          = (convert_path_to_tmpfiles_d_recurse users groups existing false pfx
              ⟨e, u, d'⟩ next).map (fun s => ⟨s.entries, s.unsupported, d⟩)
        exact ihn users groups existing pfx e u d d'
      | false =>
        have hc := ihc users groups existing (pfx ++ 47 :: nm) e u d d'
        show (match convert_path_to_tmpfiles_d_recurse users groups existing true
              (pfx ++ 47 :: nm) ⟨e, u, d⟩ cs with
          | Except.error err => (Except.error err : Except Err WalkState)
          | Except.ok st2 => convert_path_to_tmpfiles_d_recurse users groups existing true pfx
              ⟨st2.entries, st2.unsupported, st2.deleted ++ []⟩ next)
          = Except.map (fun s : WalkState => (⟨s.entries, s.unsupported, d⟩ : WalkState))
            (match convert_path_to_tmpfiles_d_recurse users groups existing false
                (pfx ++ 47 :: nm) ⟨e, u, d'⟩ cs with
            | Except.error err => (Except.error err : Except Err WalkState)
            | Except.ok st2 => convert_path_to_tmpfiles_d_recurse users groups existing false pfx
                ⟨st2.entries, st2.unsupported, st2.deleted ++ [pfx ++ 47 :: nm]⟩ next)
        rw [hc]
        cases hf : convert_path_to_tmpfiles_d_recurse users groups existing false
            (pfx ++ 47 :: nm) ⟨e, u, d'⟩ cs with
        | error err => rfl
        | ok st2 =>
          show convert_path_to_tmpfiles_d_recurse users groups existing true pfx
              ⟨st2.entries, st2.unsupported, d ++ []⟩ next
            = (convert_path_to_tmpfiles_d_recurse users groups existing false pfx
                ⟨st2.entries, st2.unsupported, st2.deleted ++ [pfx ++ 47 :: nm]⟩ next).map
                (fun s => ⟨s.entries, s.unsupported, d⟩)
          rw [List.append_nil]
          exact ihn users groups existing pfx st2.entries st2.unsupported d
            (st2.deleted ++ [pfx ++ 47 :: nm])
    · rw [if_neg hdecl, if_neg hdecl]
      cases hr : resolve_and_translate users groups (pfx ++ 47 :: nm)
          (.Directory (mode % 4096)) uid gid with
      | error err =>
        rfl
      | ok line =>
        cases mount with
        | true =>
          show convert_path_to_tmpfiles_d_recurse users groups existing true pfx
              ⟨insertSet e line, u, d⟩ next
            = (convert_path_to_tmpfiles_d_recurse users groups existing false pfx
                ⟨insertSet e line, u, d'⟩ next).map (fun s => ⟨s.entries, s.unsupported, d⟩)
          exact ihn users groups existing pfx (insertSet e line) u d d'
        | false =>
          have hc := ihc users groups existing (pfx ++ 47 :: nm) (insertSet e line) u d d'
          show (match convert_path_to_tmpfiles_d_recurse users groups existing true
                (pfx ++ 47 :: nm) ⟨insertSet e line, u, d⟩ cs with
            | Except.error err => (Except.error err : Except Err WalkState)
            | Except.ok st2 => convert_path_to_tmpfiles_d_recurse users groups existing true pfx
                ⟨st2.entries, st2.unsupported, st2.deleted ++ []⟩ next)
            = Except.map (fun s : WalkState => (⟨s.entries, s.unsupported, d⟩ : WalkState))
              (match convert_path_to_tmpfiles_d_recurse users groups existing false
                  (pfx ++ 47 :: nm) ⟨insertSet e line, u, d'⟩ cs with
              | Except.error err => (Except.error err : Except Err WalkState)
              | Except.ok st2 => convert_path_to_tmpfiles_d_recurse users groups existing false pfx
                  ⟨st2.entries, st2.unsupported, st2.deleted ++ [pfx ++ 47 :: nm]⟩ next)
          rw [hc]
          cases hf : convert_path_to_tmpfiles_d_recurse users groups existing false
              (pfx ++ 47 :: nm) ⟨insertSet e line, u, d'⟩ cs with
          | error err => rfl
          | ok st2 =>
            show convert_path_to_tmpfiles_d_recurse users groups existing true pfx
                ⟨st2.entries, st2.unsupported, d ++ []⟩ next
              = (convert_path_to_tmpfiles_d_recurse users groups existing false pfx
                  ⟨st2.entries, st2.unsupported, st2.deleted ++ [pfx ++ 47 :: nm]⟩ next).map
                  (fun s => ⟨s.entries, s.unsupported, d⟩)
            rw [List.append_nil]
            exact ihn users groups existing pfx st2.entries st2.unsupported d
              (st2.deleted ++ [pfx ++ 47 :: nm])
